import Mathlib

/-!
Shallow embedding of the twitch-search command-line utility
(src/src/main.rs) and proofs about its filtering, pagination,
normalization and reporting behaviour.

Modelling conventions:
* Rust `String` values are `List Char`; `str::to_lowercase` and
  `char::is_alphabetic` are modelled through Lean's ASCII `Char.toLower`
  and `Char.isAlpha` (no claim depends on non-ASCII case mapping).
* Rust `i64` division and remainder truncate toward zero, which is
  `Int.tdiv` / `Int.tmod`.
* Environment variables arrive as `Option (List Char)`.
* The HTTP transport and the chrono RFC3339 parser are external
  collaborators: the model receives decoded JSON bodies and the parse
  outcome (seconds since epoch) directly.
* `exit(code)` is modelled by dedicated result constructors; an `unwrap`
  panic is a dedicated constructor as well.
-/

namespace TwitchSearch

/-- Model of Rust `str::to_lowercase` (ASCII case mapping). -/
def toLowerStr (s : List Char) : List Char := s.map Char.toLower

/-- Model of Rust prefix test used to build substring containment. -/
def prefOf : List Char → List Char → Bool
  | [], _ => true
  | _ :: _, [] => false
  | a :: xs, b :: ys => a == b && prefOf xs ys

/-- Model of Rust `str::contains(needle)`: the needle occurs as a
contiguous substring of the haystack. -/
def substrOf (needle : List Char) : List Char → Bool
  | [] => prefOf needle []
  | c :: rest => prefOf needle (c :: rest) || substrOf needle rest

/-- Worker for `splitNonAlpha`; `acc` holds the current token reversed. -/
def splitNonAlphaAux (acc : List Char) : List Char → List (List Char)
  | [] => [acc.reverse]
  | c :: rest =>
    if c.isAlpha then splitNonAlphaAux (c :: acc) rest
    else acc.reverse :: splitNonAlphaAux [] rest

/-- Model of Rust `split(|c: char| !c.is_alphabetic())` (main.rs line 74):
splits on every non-alphabetic character and keeps empty pieces, exactly
as Rust's `str::split` does. -/
def splitNonAlpha (s : List Char) : List (List Char) := splitNonAlphaAux [] s

/-- Worker for `splitComma`; `acc` holds the current piece reversed. -/
def splitCommaAux (acc : List Char) : List Char → List (List Char)
  | [] => [acc.reverse]
  | c :: rest =>
    if c = ',' then acc.reverse :: splitCommaAux [] rest
    else splitCommaAux (c :: acc) rest

/-- Model of Rust `str::split(',')` (main.rs line 183), keeping empty
pieces. -/
def splitComma (s : List Char) : List (List Char) := splitCommaAux [] s

/-- The normalized stream record (struct `Entry`, main.rs lines 51-58). -/
structure Entry where
  lang : List Char
  display_name : List Char
  title : List Char
  viewer_count : Int
  live_duration : List Char
deriving DecidableEq

/-- Model of `filter` (main.rs lines 60-84): reject excluded channels,
accept everything when no term is given, otherwise match the term against
the lowercased title either on word boundaries or as a substring. -/
def filter (entry : Entry) (word : Bool) (term : Option (List Char))
    (ignored_names : List (List Char)) : Bool :=
  if ignored_names.contains (toLowerStr entry.display_name) then false
  else
    match term with
    | none => true
    | some t =>
      if word then (splitNonAlpha (toLowerStr entry.title)).contains t
      else substrOf t (toLowerStr entry.title)

/-- Model of `exclusions` (main.rs lines 176-187): lowercase the `-x`
values and append the lowercased comma-separated `TWITCH_IGNORE` pieces. -/
def exclusions (exclude : Option (List (List Char)))
    (ignoreEnv : Option (List Char)) : List (List Char) :=
  let excluded := match exclude with
    | some xs => xs.map toLowerStr
    | none => []
  match ignoreEnv with
  | some il => excluded ++ (splitComma il).map toLowerStr
  | none => excluded

/-- Rust `format!("\x7b:02\x7d", n)` on an `i64`: decimal digits padded
with zeros to a minimum width of two; the sign counts toward the width,
so any negative value already has width at least two. -/
def pad2 (n : Int) : List Char :=
  if n < 0 then '-' :: Nat.toDigits 10 n.natAbs
  else if n < 10 then '0' :: Nat.toDigits 10 n.toNat
  else Nat.toDigits 10 n.toNat

/-- Model of `to_instant` (main.rs lines 41-49). Parsing `started_at` with
chrono is the collaborator's job, so the model receives the parse outcome
(`some` start seconds, or `none` on parse failure) and the current time in
seconds; `num_hours` is seconds divided by 3600 and `num_minutes() % 60`
is (seconds divided by 60) modulo 60, with `i64` truncating semantics. -/
def to_instant (parsed : Option Int) (now : Int) : List Char :=
  match parsed with
  | some val =>
    pad2 ((now - val).tdiv 3600) ++ ':' :: pad2 (((now - val).tdiv 60).tmod 60)
  | none => []

/-- Specification-side renderer: total elapsed whole minutes shown as
total whole hours (unbounded, never reduced modulo 24) and the remaining
minutes within the hour, each zero-padded to width two. -/
def padTwo (n : Nat) : List Char :=
  if n < 10 then '0' :: Nat.toDigits 10 n else Nat.toDigits 10 n

/-- Specification-side `HH:MM` rendering of a total-minute count. -/
def hhmmOfMinutes (totalMinutes : Nat) : List Char :=
  padTwo (totalMinutes / 60) ++ ':' :: padTwo (totalMinutes % 60)

/-- JSON values as decoded by serde_json. -/
inductive Json where
  | null
  | bool (b : Bool)
  | num (n : Int)
  | str (s : List Char)
  | arr (elems : List Json)
  | obj (fields : List (List Char × Json))

/-- serde_json `Value::get` with a string key: field lookup on objects,
`None` on every other value. -/
def Json.get (j : Json) (key : List Char) : Option Json :=
  match j with
  | .obj fields => fields.lookup key
  | _ => none

/-- serde_json `Value::as_str`. -/
def Json.asStr : Json → Option (List Char)
  | .str s => some s
  | _ => none

/-- serde_json `Value::as_i64` (numbers are modelled as integers). -/
def Json.asI64 : Json → Option Int
  | .num n => some n
  | _ => none

/-- Cursor extraction inside `fetch` (main.rs lines 158-163):
`json.get("pagination")` then `.get("cursor")` then `.as_str()`,
converted to an owned string. -/
def extractCursor (json : Json) : Option (List Char) :=
  ((json.get ("pagination").toList).bind
    (fun v => v.get ("cursor").toList)).bind Json.asStr

/-- Model of `to_entry` (main.rs lines 94-104): required-field extraction
where each `unwrap` is modelled by `Option` (`none` = panic); newlines in
the title are replaced by the ellipsis character; `parse` stands for the
chrono timestamp parser. -/
def to_entry (parse : List Char → Option Int) (now : Int) (value : Json) :
    Option Entry := do
  let lang ← (value.get ("language").toList).bind Json.asStr
  let name ← (value.get ("user_name").toList).bind Json.asStr
  let title ← (value.get ("title").toList).bind Json.asStr
  let vc ← (value.get ("viewer_count").toList).bind Json.asI64
  let started ← (value.get ("started_at").toList).bind Json.asStr
  pure { lang := lang
         display_name := name
         title := title.map (fun c => if c = '\n' then '…' else c)
         viewer_count := vc
         live_duration := to_instant (parse started) now }

/-- Collect a list of optional entries; `none` as soon as one record
failed to convert (the panic aborts the whole page). -/
def sequenceOpt : List (Option Entry) → Option (List Entry)
  | [] => some []
  | none :: _ => none
  | some e :: rest => (sequenceOpt rest).map (fun es => e :: es)

/-- Outcome of one `fetch` call: `exitNow code msg` models `exit(code)`
after optionally printing `msg` to stderr, `panicked` models an `unwrap`
panic while converting a record, `page` is a normal return of the page's
entries and the extracted cursor. -/
inductive FetchResult where
  | exitNow (code : Nat) (msg : Option (List Char))
  | panicked
  | page (entries : List Entry) (cursor : Option (List Char))
deriving DecidableEq

/-- Model of `fetch` (main.rs lines 106-171). The `after` cursor is used
by the source only to build the request URL; since the transport is a
collaborator that hands the model the decoded JSON body, the URL is not
modelled. The environment checks happen before any request is issued, so
a missing client id or token yields `exitNow 1` no matter what the
response would have been. A response whose `data` field is absent or not
an array yields `exitNow 0` with no message. -/
def fetch (client_id token : Option (List Char))
    (parse : List Char → Option Int) (now : Int) (json : Json) :
    FetchResult :=
  match client_id with
  | none => .exitNow 1 (some ("Client id missing").toList)
  | some _ =>
    match token with
    | none => .exitNow 1 (some ("OAuth token missing").toList)
    | some _ =>
      let pagination := extractCursor json
      match json.get ("data").toList with
      | some (.arr a) =>
        match sequenceOpt (a.map (to_entry parse now)) with
        | some es => .page es pagination
        | none => .panicked
      | _ => .exitNow 0 none

/-- Outcome of the fetch loop in `main` (main.rs lines 203-217).
`finished` carries the accumulated entries, the running total, and — as
instrumentation — the list of cursor arguments the successive fetch calls
received (one element per fetch call, in call order). -/
inductive LoopOut where
  | exited (code : Nat) (msg : Option (List Char))
  | panicked
  | finished (result : List Entry) (total : Nat)
      (cursorArgs : List (Option (List Char)))
deriving DecidableEq

/-- The fetch loop of `main`, driven by the list of successive fetch
outcomes; the result is `none` when that list is exhausted while a cursor
is still pending (the real loop would issue another fetch). -/
def runLoop : Option (List Char) → List FetchResult → Option LoopOut
  | _, [] => none
  | after, r :: rest =>
    match r with
    | .exitNow c m => some (.exited c m)
    | .panicked => some .panicked
    | .page es cur =>
      match cur with
      | none => some (.finished es es.length [after])
      | some c =>
        match runLoop (some c) rest with
        | some (.finished res tot curArgs) =>
          some (.finished (es ++ res) (es.length + tot) (after :: curArgs))
        | other => other

/-- The summary line `Done (found/total)` (main.rs line 227). -/
def doneLine (found total : Nat) : List Char :=
  ("Done (").toList ++ Nat.toDigits 10 found ++
    '/' :: Nat.toDigits 10 total ++ [')']

/-- The post-loop stage of `main` (main.rs lines 219-227): limit `0`
becomes the pre-filter total, the accumulated entries are filtered then
truncated to the limit, and the summary line reports the printed count
over the pre-filter total. Returns the printed entries and the summary
line. -/
def outputStage (result : List Entry) (total : Nat) (word : Bool)
    (term : Option (List Char)) (excl : List (List Char))
    (limitArg : Nat) : List Entry × List Char :=
  let limit := if limitArg = 0 then total else limitArg
  let found := (result.filter (fun e => filter e word term excl)).take limit
  (found, doneLine found.length total)

/-- Overall outcome of one program run. -/
inductive RunResult where
  | earlyExit (code : Nat) (msg : Option (List Char))
  | panicked
  | report (printed : List Entry) (summary : List Char)
deriving DecidableEq

/-- End-to-end model of `main` (main.rs lines 192-228): run the fetch
loop over the successive JSON response bodies, then filter, truncate and
summarize. `none` when the supplied response list runs out before the
loop stops. -/
def mainRun (client_id token ignoreEnv : Option (List Char))
    (parse : List Char → Option Int) (now : Int) (responses : List Json)
    (term : Option (List Char)) (word : Bool)
    (exclude : Option (List (List Char))) (limitArg : Nat) :
    Option RunResult :=
  let excl := exclusions exclude ignoreEnv
  match runLoop none (responses.map (fetch client_id token parse now)) with
  | none => none
  | some (.exited c m) => some (.earlyExit c m)
  | some .panicked => some .panicked
  | some (.finished result total _) =>
    some (.report (outputStage result total word term excl limitArg).1
      (outputStage result total word term excl limitArg).2)

/-- A minimal entry used by concrete instantiations. -/
def sampleEntry : Entry :=
  { lang := [], display_name := [], title := [], viewer_count := 0,
    live_duration := [] }

/-- An entry with a given display name and title, used by concrete
instantiations. -/
def mkEntry (name title : List Char) : Entry :=
  { lang := ("en").toList, display_name := name, title := title,
    viewer_count := 1, live_duration := [] }

/-- `prefOf` decides list-prefix. -/
theorem prefOf_iff : ∀ (n h : List Char), prefOf n h = true ↔ n <+: h
  | [], h => by simp [prefOf]
  | a :: xs, [] => by simp [prefOf]
  | a :: xs, b :: ys => by
    rw [prefOf, Bool.and_eq_true, beq_iff_eq, List.cons_prefix_cons,
      prefOf_iff xs ys]

/-- `substrOf` decides contiguous-substring containment. -/
theorem substrOf_iff : ∀ (n h : List Char), substrOf n h = true ↔ n <:+: h
  | n, [] => by simp [substrOf, prefOf_iff, List.prefix_nil, List.infix_nil]
  | n, c :: rest => by
    simp [substrOf, prefOf_iff, substrOf_iff n rest, List.infix_cons_iff]

/-- The empty needle is a substring of every haystack. -/
theorem substrOf_nil : ∀ (h : List Char), substrOf [] h = true
  | [] => rfl
  | _ :: _ => by simp [substrOf, prefOf]

/-- Every character of every token produced by `splitNonAlphaAux` is
alphabetic, provided the accumulator only holds alphabetic characters. -/
theorem splitNonAlphaAux_alpha (cs : List Char) :
    ∀ (acc : List Char), (∀ c ∈ acc, c.isAlpha = true) →
      ∀ t ∈ splitNonAlphaAux acc cs, ∀ c ∈ t, c.isAlpha = true := by
  induction cs with
  | nil =>
    intro acc hacc t ht c hc
    simp only [splitNonAlphaAux, List.mem_singleton] at ht
    subst ht
    exact hacc c (List.mem_reverse.mp hc)
  | cons d rest ih =>
    intro acc hacc t ht c hc
    by_cases hd : d.isAlpha
    · simp only [splitNonAlphaAux, if_pos hd] at ht
      refine ih (d :: acc) ?_ t ht c hc
      intro x hx
      rcases List.mem_cons.mp hx with h | h
      · subst h; exact hd
      · exact hacc x h
    · simp only [splitNonAlphaAux, if_neg hd] at ht
      rcases List.mem_cons.mp ht with h | h
      · subst h; exact hacc c (List.mem_reverse.mp hc)
      · exact ih [] (by intro x hx; cases hx) t h c hc

/-- Every character of every token of `splitNonAlpha` is alphabetic. -/
theorem splitNonAlpha_alpha (s : List Char) :
    ∀ t ∈ splitNonAlpha s, ∀ c ∈ t, c.isAlpha = true :=
  splitNonAlphaAux_alpha s [] (by intro x hx; cases hx)

/-- C1 (counterexample): with no exclusions, term `"FOO"` and title
`"foobar"` in substring mode, the lowercased title does contain the
lowercased term, yet the filter rejects the entry — the source never
lowercases the term (main.rs line 83), so the claimed case-insensitivity
in the term fails. -/
theorem c1_counterexample :
    filter (mkEntry ("alice").toList ("foobar").toList) false
        (some ("FOO").toList) [] = false ∧
      substrOf (toLowerStr ("FOO").toList)
        (toLowerStr ("foobar").toList) = true ∧
      ([] : List (List Char)).contains
        (toLowerStr ("alice").toList) = false := by
  refine ⟨by decide, by decide, by decide⟩

/-- C1 (amended): for every entry not rejected by the exclusion set, with
a term supplied and word-boundary mode off, the filter accepts iff the
lowercased title contains the term exactly as supplied (the term itself
is not lowercased; only when the term is already lowercase does this
coincide with case-insensitive matching). -/
theorem c1_substring_mode (entry : Entry) (term : List Char)
    (excl : List (List Char))
    (hx : excl.contains (toLowerStr entry.display_name) = false) :
    filter entry false (some term) excl = true ↔
      term <:+: toLowerStr entry.title := by
  unfold filter
  rw [if_neg (by simp only [hx]; decide)]
  exact substrOf_iff term (toLowerStr entry.title)

/-- C1 witness: term `"foo"` matches titles `"foobar"`, `"xfooy"` and
`"play foo!"` in substring mode. -/
theorem c1_substring_mode_witness :
    filter (mkEntry ("alice").toList ("play foo!").toList) false
        (some ("foo").toList) [] = true ∧
      filter (mkEntry ("alice").toList ("foobar").toList) false
        (some ("foo").toList) [] = true ∧
      filter (mkEntry ("alice").toList ("xfooy").toList) false
        (some ("foo").toList) [] = true := by
  refine ⟨(c1_substring_mode _ _ _ (by decide)).mpr (by decide),
    by decide, by decide⟩

/-- C2: for every entry not rejected by the exclusion set, with a term
supplied and word-boundary mode on, the filter accepts iff the term
equals one of the tokens obtained by splitting the lowercased title on
every non-alphabetic character; in particular a term containing any
non-alphabetic character never matches any title in this mode. -/
theorem c2_word_mode (entry : Entry) (term : List Char)
    (excl : List (List Char))
    (hx : excl.contains (toLowerStr entry.display_name) = false) :
    (filter entry true (some term) excl = true ↔
        term ∈ splitNonAlpha (toLowerStr entry.title)) ∧
      ((∃ c ∈ term, ¬ c.isAlpha = true) →
        filter entry true (some term) excl = false) := by
  have hmain : filter entry true (some term) excl = true ↔
      term ∈ splitNonAlpha (toLowerStr entry.title) := by
    unfold filter
    rw [if_neg (by simp only [hx]; decide)]
    exact List.elem_iff
  refine ⟨hmain, ?_⟩
  rintro ⟨c, hc, hca⟩
  by_contra hne
  have htrue : filter entry true (some term) excl = true := by
    revert hne
    cases filter entry true (some term) excl <;> simp
  exact hca (splitNonAlpha_alpha (toLowerStr entry.title) term
    (hmain.mp htrue) c hc)

/-- C2 witness: in word-boundary mode, term `"foo"` matches titles
`"foo bar"` and `"play foo!"` but not `"foobar"` or `"xfooy"`, and the
term `"foo!"` (containing a non-alphabetic character) matches nothing. -/
theorem c2_word_mode_witness :
    filter (mkEntry ("bob").toList ("foo bar").toList) true
        (some ("foo").toList) [] = true ∧
      filter (mkEntry ("bob").toList ("play foo!").toList) true
        (some ("foo").toList) [] = true ∧
      filter (mkEntry ("bob").toList ("foobar").toList) true
        (some ("foo").toList) [] = false ∧
      filter (mkEntry ("bob").toList ("xfooy").toList) true
        (some ("foo").toList) [] = false ∧
      filter (mkEntry ("bob").toList ("play foo!").toList) true
        (some ("foo!").toList) [] = false := by
  refine ⟨(c2_word_mode _ _ _ (by decide)).1.mpr (by decide),
    by decide, by decide, by decide,
    (c2_word_mode (mkEntry ("bob").toList ("play foo!").toList)
        (("foo!").toList) [] (by decide)).2 ⟨'!', by decide, by decide⟩⟩

/-- C7: an entry whose lowercased display name is in the exclusion set
assembled by `exclusions` is rejected for every combination of term and
word-boundary mode. -/
theorem c7_exclusion (entry : Entry) (word : Bool)
    (term : Option (List Char)) (exclude : Option (List (List Char)))
    (ignoreEnv : Option (List Char))
    (h : toLowerStr entry.display_name ∈ exclusions exclude ignoreEnv) :
    filter entry word term (exclusions exclude ignoreEnv) = false := by
  unfold filter
  rw [if_pos]
  exact List.elem_iff.mpr h

/-- C7 witness: display name `"ALICE"` is rejected whether the exclusion
comes from a `-x` value or from the environment ignore list, with and
without a term, in both matching modes. -/
theorem c7_exclusion_witness :
    filter (mkEntry ("ALICE").toList ("foo").toList) true
        (some ("foo").toList)
        (exclusions (some [("Bob").toList])
          (some ("alice,Carl").toList)) = false := by
  exact c7_exclusion _ true (some (("foo").toList))
    (some [("Bob").toList]) (some (("alice,Carl").toList)) (by decide)

/-- C10: for every entry not rejected by the exclusion set, the empty
search term accepts the entry in substring mode, while in word-boundary
mode it accepts the entry iff splitting the lowercased title on
non-alphabetic characters yields an empty token. -/
theorem c10_empty_term (entry : Entry) (excl : List (List Char))
    (hx : excl.contains (toLowerStr entry.display_name) = false) :
    filter entry false (some []) excl = true ∧
      (filter entry true (some []) excl = true ↔
        [] ∈ splitNonAlpha (toLowerStr entry.title)) := by
  constructor
  · unfold filter
    rw [if_neg (by simp only [hx]; decide)]
    exact substrOf_nil (toLowerStr entry.title)
  · unfold filter
    rw [if_neg (by simp only [hx]; decide)]
    exact List.elem_iff

/-- C10 witness: with the empty term, substring mode accepts title
`"foobar"`; word mode accepts the empty title and `"play foo!"` (its
trailing `'!'` yields an empty token) but rejects the all-alphabetic
title `"foobar"`. -/
theorem c10_empty_term_witness :
    filter (mkEntry ("bob").toList ("foobar").toList) false (some []) []
        = true ∧
      filter (mkEntry ("bob").toList []) true (some []) [] = true ∧
      filter (mkEntry ("bob").toList ("play foo!").toList) true (some [])
        [] = true ∧
      filter (mkEntry ("bob").toList ("foobar").toList) true (some []) []
        = false := by
  refine ⟨(c10_empty_term _ _ (by decide)).1,
    (c10_empty_term (mkEntry ("bob").toList []) [] (by decide)).2.mpr
      (by decide),
    by decide, by decide⟩

/-- Running the loop over pages whose last element has no cursor and
whose earlier elements all carry one: the entries concatenate in page
order, the total is the length of the concatenation, and each fetch call
after the first receives the previous page's cursor. -/
theorem runLoop_pages (lastEntries : List Entry) :
    ∀ (init : List (List Entry × Option (List Char)))
      (after : Option (List Char)),
      (∀ p ∈ init, (p.2).isSome = true) →
      runLoop after ((init ++ [(lastEntries, none)]).map
          (fun p : List Entry × Option (List Char) => FetchResult.page p.1 p.2)) =
        some (.finished ((init.map Prod.fst).flatten ++ lastEntries)
          ((init.map Prod.fst).flatten ++ lastEntries).length
          (after :: init.map Prod.snd)) := by
  intro init
  induction init with
  | nil =>
    intro after _
    simp [runLoop]
  | cons p rest ih =>
    intro after h
    obtain ⟨es, cur⟩ := p
    have hc : cur.isSome = true := h (es, cur) (List.mem_cons_self _ _)
    obtain ⟨c, rfl⟩ : ∃ c, cur = some c := by
      cases cur with
      | none => cases hc
      | some c => exact ⟨c, rfl⟩
    have hrec := ih (some c) (fun q hq => h q (List.mem_cons_of_mem _ hq))
    simp only [List.cons_append, List.map_cons, runLoop, List.append_eq]
    rw [hrec]
    simp [List.append_assoc, List.length_append]

/-- C3: for every sequence of pages ending in a cursorless page, the
fetch loop consumes exactly those pages, the accumulated sequence is the
concatenation of the pages' entries in page order with record order
preserved, the reported total is the length of that concatenation
(before any filtering or limiting), and the instrumented cursor-argument
list shows one fetch per page with fetch `i+1` receiving page `i`'s
cursor (the first fetch receiving none). -/
theorem c3_pagination (init : List (List Entry × Option (List Char)))
    (lastEntries : List Entry)
    (h : ∀ p ∈ init, (p.2).isSome = true) :
    runLoop none ((init ++ [(lastEntries, none)]).map
        (fun p : List Entry × Option (List Char) => FetchResult.page p.1 p.2)) =
      some (.finished ((init.map Prod.fst).flatten ++ lastEntries)
        ((init.map Prod.fst).flatten ++ lastEntries).length
        (none :: init.map Prod.snd)) :=
  runLoop_pages lastEntries init none h

set_option maxRecDepth 100000 in
/-- C3 witness: a 100-record page with cursor `"abc"` followed by a
30-record page with no cursor gives total 130 and exactly two fetch
calls, the second using cursor `"abc"`. -/
theorem c3_pagination_witness :
    runLoop none (([(List.replicate 100 sampleEntry, some (("abc").toList))]
        ++ [(List.replicate 30 sampleEntry, none)]).map
        (fun p : List Entry × Option (List Char) => FetchResult.page p.1 p.2)) =
      some (.finished (List.replicate 130 sampleEntry) 130
        [none, some (("abc").toList)]) := by
  refine (c3_pagination
    [(List.replicate 100 sampleEntry, some (("abc").toList))]
    (List.replicate 30 sampleEntry) ?_).trans (by decide)
  intro p hp
  rw [List.mem_singleton] at hp
  subst hp
  rfl

/-- C4 (counterexample): a response whose `pagination.cursor` is the
empty string still yields an extracted cursor (`some ""`), `fetch`
forwards it as the page cursor, and the loop then fetches again instead
of stopping — contrary to the claim that an empty cursor string counts
as absent and terminates the loop. -/
theorem c4_counterexample :
    extractCursor (Json.obj [(("pagination").toList,
        Json.obj [(("cursor").toList, Json.str [])]),
        (("data").toList, Json.arr [])]) = some [] ∧
      fetch (some []) (some []) (fun _ => none) 0
        (Json.obj [(("pagination").toList,
          Json.obj [(("cursor").toList, Json.str [])]),
          (("data").toList, Json.arr [])]) =
        .page [] (some []) ∧
      runLoop none [FetchResult.page [] (some []),
          FetchResult.page [] none] =
        some (.finished [] 0 [none, some []]) :=
  ⟨rfl, rfl, rfl⟩

/-- Binding `Json.asStr` succeeds exactly on string values. -/
theorem bind_asStr (o : Option Json) (s : List Char) :
    o.bind Json.asStr = some s ↔ o = some (Json.str s) := by
  cases o with
  | none => simp
  | some v => cases v <;> simp [Json.asStr]

/-- C4 (amended): a cursor is extracted from `pagination.cursor` iff the
field is present and is a string — including the empty string; only
absence (or a non-string value) yields no cursor, and only a page with
no cursor terminates the fetch loop. -/
theorem c4_cursor_extraction (j : Json) (s : List Char) :
    (extractCursor j = some s ↔
      ∃ p, j.get ("pagination").toList = some p ∧
        p.get ("cursor").toList = some (Json.str s)) ∧
      ∀ (es : List Entry) (after : Option (List Char)),
        runLoop after [FetchResult.page es none] =
          some (.finished es es.length [after]) := by
  constructor
  · unfold extractCursor
    rw [bind_asStr, Option.bind_eq_some]
  · intro es after
    rfl

/-- C4 witness: a present, non-empty string cursor is extracted. -/
theorem c4_cursor_extraction_witness :
    extractCursor (Json.obj [(("pagination").toList,
        Json.obj [(("cursor").toList, Json.str (("ab").toList))])]) =
      some (("ab").toList) :=
  (c4_cursor_extraction _ _).1.mpr
    ⟨Json.obj [(("cursor").toList, Json.str (("ab").toList))], rfl, rfl⟩

/-- `Int.tdiv` on natural numbers is natural division. -/
theorem natCast_tdiv (m n : Nat) :
    ((m : Int)).tdiv ((n : Int)) = ((m / n : Nat) : Int) := rfl

/-- `Int.tmod` on natural numbers is the natural remainder. -/
theorem natCast_tmod (m n : Nat) :
    ((m : Int)).tmod ((n : Int)) = ((m % n : Nat) : Int) := rfl

/-- On natural numbers the Rust-style width-2 padding agrees with the
specification-side renderer. -/
theorem pad2_natCast (n : Nat) : pad2 ((n : Int)) = padTwo n := by
  unfold pad2 padTwo
  rw [if_neg (Int.not_lt.mpr (Int.natCast_nonneg n)), Int.toNat_natCast]
  by_cases h : n < 10
  · rw [if_pos (by exact_mod_cast h), if_pos h]
  · rw [if_neg (by exact_mod_cast h), if_neg h]

/-- A non-negative elapsed duration renders as total whole hours and
minutes-within-hour. -/
theorem to_instant_natCast (val now : Int) (k : Nat)
    (hk : now - val = (k : Int)) :
    to_instant (some val) now = hhmmOfMinutes (k / 60) := by
  have h1 : to_instant (some val) now =
      pad2 ((now - val).tdiv 3600) ++
        ':' :: pad2 (((now - val).tdiv 60).tmod 60) := rfl
  rw [h1, hk, show ((3600 : Int)) = ((3600 : Nat) : Int) from rfl,
    show ((60 : Int)) = ((60 : Nat) : Int) from rfl, natCast_tdiv,
    natCast_tdiv, natCast_tmod, pad2_natCast, pad2_natCast]
  unfold hhmmOfMinutes
  rw [Nat.div_div_eq_div_mul]

/-- C5: when `started_at` parses and does not lie in the future, the
live duration is the elapsed time rendered as `HH:MM` with `HH` the
total number of whole elapsed hours (unbounded, never reduced modulo
24) and `MM` the remaining minutes within the hour, both zero-padded to
two digits; when parsing fails the live duration is the empty string. -/
theorem c5_live_duration (val now : Int) (h : val ≤ now) :
    to_instant (some val) now = hhmmOfMinutes ((now - val).toNat / 60) ∧
      to_instant none now = [] :=
  ⟨to_instant_natCast val now ((now - val).toNat) (by omega), rfl⟩

/-- C5 witness: 90 elapsed minutes render as `"01:30"` and 30 elapsed
hours as `"30:00"` (not `"06:00"`). -/
theorem c5_live_duration_witness :
    to_instant (some 0) 5400 = ("01:30").toList ∧
      to_instant (some 0) 108000 = ("30:00").toList :=
  ⟨((c5_live_duration 0 5400 (by decide)).1).trans (by decide),
    ((c5_live_duration 0 108000 (by decide)).1).trans (by decide)⟩

/-- C6: limit 0 means unlimited output (every accepted entry is
printed), a positive limit caps the printed count at
`min limit acceptedCount`, and the summary line is
`Done (printedCount/totalFetchedBeforeFiltering)`. -/
theorem c6_limit (result : List Entry) (total : Nat) (word : Bool)
    (term : Option (List Char)) (excl : List (List Char)) (limitArg : Nat)
    (htot : result.length ≤ total) :
    (limitArg = 0 → (outputStage result total word term excl limitArg).1 =
        result.filter (fun e => filter e word term excl)) ∧
      (0 < limitArg →
        ((outputStage result total word term excl limitArg).1).length =
          min limitArg
            (result.filter (fun e => filter e word term excl)).length) ∧
      (outputStage result total word term excl limitArg).2 =
        doneLine
          ((outputStage result total word term excl limitArg).1).length
          total := by
  refine ⟨?_, ?_, rfl⟩
  · intro h0
    subst h0
    simp only [outputStage, if_pos rfl]
    exact List.take_of_length_le
      (le_trans (List.length_filter_le _ _) htot)
  · intro hpos
    simp only [outputStage, if_neg (Nat.pos_iff_ne_zero.mp hpos)]
    exact List.length_take _ _

set_option maxRecDepth 100000 in
/-- C6 witness: 130 fetched entries, limit 10, no term: exactly 10
entries are printed and the summary reads `Done (10/130)`. -/
theorem c6_limit_witness :
    ((outputStage (List.replicate 130 sampleEntry) 130 false none []
        10).1).length = 10 ∧
      (outputStage (List.replicate 130 sampleEntry) 130 false none []
        10).2 = ("Done (10/130)").toList := by
  refine ⟨((c6_limit (List.replicate 130 sampleEntry) 130 false none []
    10 (by decide)).2.1 (by decide)).trans (by decide), by decide⟩

/-- C8: with both credentials present, a response whose `data` field is
absent or not an array terminates the run immediately and successfully:
the fetch reports exit code 0 with no message at whatever point in the
pagination it occurs, and the whole run ends as `earlyExit 0 none` —
no printed entries, no summary line, no error message. -/
theorem c8_missing_data (cid tok : List Char)
    (parse : List Char → Option Int) (now : Int) (j : Json)
    (hj : ∀ a, j.get ("data").toList ≠ some (Json.arr a))
    (after : Option (List Char)) (rest : List Json)
    (ignoreEnv term : Option (List Char)) (word : Bool)
    (exclude : Option (List (List Char))) (limitArg : Nat) :
    runLoop after ((j :: rest).map (fetch (some cid) (some tok) parse now))
        = some (.exited 0 none) ∧
      mainRun (some cid) (some tok) ignoreEnv parse now (j :: rest) term
        word exclude limitArg = some (.earlyExit 0 none) := by
  have hf : fetch (some cid) (some tok) parse now j = .exitNow 0 none := by
    unfold fetch
    cases hd : j.get ("data").toList with
    | none => rfl
    | some v =>
      cases v with
      | arr a => exact absurd hd (hj a)
      | null => rfl
      | bool b => rfl
      | num n => rfl
      | str s => rfl
      | obj fields => rfl
  have hloop : ∀ a, runLoop a
      ((j :: rest).map (fetch (some cid) (some tok) parse now)) =
      some (.exited 0 none) := by
    intro a
    rw [List.map_cons, hf]
    rfl
  refine ⟨hloop after, ?_⟩
  unfold mainRun
  rw [hloop none]

/-- C8 witness: an object response with no `data` field ends the run
with exit code 0 and no output. -/
theorem c8_missing_data_witness :
    mainRun (some []) (some []) none (fun _ => none) 0 [Json.obj []] none
        false none 0 = some (.earlyExit 0 none) :=
  (c8_missing_data [] [] (fun _ => none) 0 (Json.obj [])
    (fun _ hd => Option.noConfusion hd) none [] none none false none
    0).2

/-- C9: if the client-id environment variable is unset the run exits
immediately with code 1 and the message `Client id missing`; if it is
set but the token variable is unset the run exits with code 1 and the
distinct message `OAuth token missing`; both hold for every response
body, since the checks precede the network request. -/
theorem c9_fatal_config (tok cid : List Char)
    (ignoreEnv term : Option (List Char)) (parse : List Char → Option Int)
    (now : Int) (j : Json) (rest : List Json) (word : Bool)
    (exclude : Option (List (List Char))) (limitArg : Nat) :
    mainRun none (some tok) ignoreEnv parse now (j :: rest) term word
        exclude limitArg =
      some (.earlyExit 1 (some (("Client id missing").toList))) ∧
      mainRun (some cid) none ignoreEnv parse now (j :: rest) term word
        exclude limitArg =
      some (.earlyExit 1 (some (("OAuth token missing").toList))) ∧
      ("Client id missing").toList ≠ ("OAuth token missing").toList := by
  refine ⟨?_, ?_, by decide⟩
  · simp [mainRun, runLoop, fetch]
  · simp [mainRun, runLoop, fetch]

end TwitchSearch
